import Mathlib

/-!
Verification of the brain execution-log system: a shallow embedding of the
record store, the query/aggregation handlers of the three API server
variants (`execution_log_api.py`, `execution_log_api_fixed.py`,
`execution_log_api_enhanced.py`) and the execution runner
(`brain_execute_wrapper.py`), together with theorems settling the frozen
claims about the natural-language specification.

Strings are carried as Lean `String`; the handful of string manipulations
the Python code performs (substring search, `split('/')`, `startswith`,
`strip`) are given executable structural definitions over `List Char` so
that concrete instances evaluate inside the kernel.  Python string
comparison (used by `sorted` / `list.sort`) is code-point lexicographic
order, embedded as `lexLt` below.
-/

/-! ## String utilities (structural embeddings of the Python operations) -/

/-- Code-point lexicographic strict order on character lists: the order
Python uses when comparing strings (and the order of Lean `String.lt`). -/
def lexLt : List Char → List Char → Bool
  | [], [] => false
  | [], _ :: _ => true
  | _ :: _, [] => false
  | a :: as, b :: bs =>
    if a.toNat < b.toNat then true
    else if b.toNat < a.toNat then false
    else lexLt as bs

/-- Strict `<` on strings, as Python compares them. -/
def strLtB (a b : String) : Bool := lexLt a.data b.data

/-- Bool-valued `<` on naturals, used as the sort comparator for file
modification times. -/
def natLtB (a b : Nat) : Bool := decide (a < b)

/-- `s.startswith p` of Python. -/
def strStartsWith (s p : String) : Bool := p.data.isPrefixOf s.data

/-- The characters after the last `'/'` (the whole list when there is no
`'/'`): Python's `path.split('/')[-1]`. -/
def afterLastSlashAux (l : List Char) : List Char :=
  l.foldl (fun acc c => if c = '/' then [] else acc ++ [c]) []

/-- Python's `path.split('/')[-1]`. -/
def afterLastSlash (p : String) : String := String.mk (afterLastSlashAux p.data)

/-- Split a character list at the first occurrence of the pattern `m`:
`some (before, after)` when `m` occurs, `none` otherwise. -/
def firstSplitAux (m : List Char) : List Char → Option (List Char × List Char)
  | [] => none
  | c :: cs =>
    if m.isPrefixOf (c :: cs) then some ([], (c :: cs).drop m.length)
    else
      match firstSplitAux m cs with
      | some (a, b) => some (c :: a, b)
      | none => none

/-- Python's `t.split(m, 1)` together with the `m in t` membership test:
`some (before, after)` splits at the first occurrence of `m`. -/
def splitFirst (m t : String) : Option (String × String) :=
  match firstSplitAux m.data t.data with
  | some (a, b) => some (String.mk a, String.mk b)
  | none => none

/-- Python's substring test `m in t` (for nonempty `m`). -/
def strContains (t m : String) : Bool := (firstSplitAux m.data t.data).isSome

/-- Python's `s.strip()` (over the ASCII whitespace Lean knows about). -/
def strTrim (s : String) : String :=
  String.mk (((s.data.dropWhile Char.isWhitespace).reverse.dropWhile Char.isWhitespace).reverse)

/-- Python's `s[:n]`: the first `n` characters. -/
def strTake (s : String) (n : Nat) : String := String.mk (s.data.take n)

/-- Python's `l[-n:]`: the last `n` elements (the whole list when shorter). -/
def lastN (n : Nat) (l : List α) : List α := l.drop (l.length - n)

/-! ## Stable descending insertion sort

`sortDescBy lt key` models Python's `list.sort(key=key, reverse=True)`:
a stable sort placing larger keys first.  An element is inserted before
the first element whose key is strictly smaller, so elements with equal
keys keep their original relative order, exactly as Python's stable sort
with `reverse=True` does. -/

def insDescBy (lt : κ → κ → Bool) (key : α → κ) (x : α) : List α → List α
  | [] => [x]
  | y :: ys => if lt (key x) (key y) then y :: insDescBy lt key x ys else x :: y :: ys

def sortDescBy (lt : κ → κ → Bool) (key : α → κ) : List α → List α
  | [] => []
  | x :: xs => insDescBy lt key x (sortDescBy lt key xs)

theorem mem_insDescBy (lt : κ → κ → Bool) (key : α → κ) (x : α) (l : List α) (z : α) :
    z ∈ insDescBy lt key x l ↔ z = x ∨ z ∈ l := by
  induction l with
  | nil => simp [insDescBy]
  | cons y ys ih =>
    simp only [insDescBy]
    split <;> (simp only [List.mem_cons, ih]) <;> tauto

theorem pairwise_insDescBy {lt : κ → κ → Bool} {key : α → κ}
    (hasym : ∀ a b, lt a b = true → lt b a = false)
    (hneg : ∀ a b c, lt a b = false → lt b c = false → lt a c = false)
    (x : α) (l : List α)
    (hl : l.Pairwise (fun a b => lt (key a) (key b) = false)) :
    (insDescBy lt key x l).Pairwise (fun a b => lt (key a) (key b) = false) := by
  induction l with
  | nil => simp [insDescBy]
  | cons y ys ih =>
    cases hl with
    | cons hy hys =>
      simp only [insDescBy]
      split
      case isTrue h =>
        refine List.Pairwise.cons ?_ (ih hys)
        intro z hz
        rcases (mem_insDescBy lt key x ys z).1 hz with rfl | hz'
        · exact hasym _ _ h
        · exact hy z hz'
      case isFalse h =>
        have hxy : lt (key x) (key y) = false := by
          cases hxy : lt (key x) (key y)
          · rfl
          · exact absurd hxy h
        refine List.Pairwise.cons ?_ (List.Pairwise.cons hy hys)
        intro z hz
        rcases List.mem_cons.1 hz with rfl | hz'
        · exact hxy
        · exact hneg _ _ _ hxy (hy z hz')

theorem pairwise_sortDescBy {lt : κ → κ → Bool} {key : α → κ}
    (hasym : ∀ a b, lt a b = true → lt b a = false)
    (hneg : ∀ a b c, lt a b = false → lt b c = false → lt a c = false)
    (l : List α) :
    (sortDescBy lt key l).Pairwise (fun a b => lt (key a) (key b) = false) := by
  induction l with
  | nil => exact List.Pairwise.nil
  | cons x xs ih => exact pairwise_insDescBy hasym hneg x _ ih

/-! ### Comparator facts for the two key types actually sorted on -/

theorem natLtB_asymm : ∀ a b : Nat, natLtB a b = true → natLtB b a = false := by
  intro a b h
  simp only [natLtB, decide_eq_true_eq] at h
  simp only [natLtB, decide_eq_false_iff_not]
  omega

theorem natLtB_neg_trans :
    ∀ a b c : Nat, natLtB a b = false → natLtB b c = false → natLtB a c = false := by
  intro a b c h1 h2
  simp only [natLtB, decide_eq_false_iff_not] at h1 h2 ⊢
  omega

theorem lexLt_asymm : ∀ a b : List Char, lexLt a b = true → lexLt b a = false := by
  intro a
  induction a with
  | nil =>
    intro b h
    cases b with
    | nil => simp [lexLt] at h
    | cons c cs => simp [lexLt]
  | cons x xs ih =>
    intro b h
    cases b with
    | nil => simp [lexLt] at h
    | cons y ys =>
      simp only [lexLt] at h ⊢
      by_cases h1 : x.toNat < y.toNat
      · have h2 : ¬ y.toNat < x.toNat := by omega
        simp [h1, h2]
      · by_cases h2 : y.toNat < x.toNat
        · simp [h1, h2] at h
        · simp only [if_neg h1, if_neg h2] at h ⊢
          exact ih ys h

theorem lexLt_neg_trans :
    ∀ a b c : List Char, lexLt a b = false → lexLt b c = false → lexLt a c = false := by
  intro a
  induction a with
  | nil =>
    intro b c h1 h2
    cases b with
    | nil => exact h2
    | cons y ys => simp [lexLt] at h1
  | cons x xs ih =>
    intro b c h1 h2
    cases c with
    | nil => cases b <;> simp [lexLt]
    | cons z zs =>
      cases b with
      | nil => simp [lexLt] at h2
      | cons y ys =>
        simp only [lexLt] at h1 h2 ⊢
        by_cases hxy : x.toNat < y.toNat
        · simp [hxy] at h1
        · by_cases hyz : y.toNat < z.toNat
          · simp [hyz] at h2
          · by_cases hxz : x.toNat < z.toNat
            · exact absurd hxz (by omega)
            · simp only [if_neg hxz, if_neg hxy] at h1 ⊢
              by_cases hzx : z.toNat < x.toNat
              · simp [hzx]
              · simp only [if_neg hzx]
                have hyx : ¬ y.toNat < x.toNat := by omega
                have hzy : ¬ z.toNat < y.toNat := by omega
                simp only [if_neg hyx] at h1
                simp only [if_neg hyz, if_neg hzy] at h2
                exact ih ys zs h1 h2

theorem strLtB_asymm : ∀ a b : String, strLtB a b = true → strLtB b a = false :=
  fun a b h => lexLt_asymm a.data b.data h

theorem strLtB_neg_trans :
    ∀ a b c : String, strLtB a b = false → strLtB b c = false → strLtB a c = false :=
  fun a b c h1 h2 => lexLt_neg_trans a.data b.data c.data h1 h2

theorem lexLt_nil_right : ∀ l : List Char, lexLt l [] = false := by
  intro l; cases l <;> rfl

theorem eq_nil_of_lexLt_nil_left {l : List Char} (h : lexLt [] l = false) : l = [] := by
  cases l with
  | nil => rfl
  | cons c cs => simp [lexLt] at h

theorem strLtB_empty_left {s : String} (h : strLtB "" s = false) : s = "" := by
  have hd : s.data = [] := eq_nil_of_lexLt_nil_left h
  cases s with
  | mk data =>
    simp only [String.data] at hd
    subst hd
    rfl

/-! ## Data model

A parsed log line is an `Entry`: a JSON object carrying any subset of the
fields the readers inspect.  An unparseable (or blank) line is `none`.  A
`LogFile` is one file of the flat log directory: its path (`name`), its
modification time, and its lines. -/

structure Entry where
  execution_id : Option String := none
  language : Option String := none
  status : Option String := none
  timestamp : Option String := none
  type : Option String := none
  code : Option String := none
  message : Option String := none
  output : Option String := none
deriving DecidableEq

structure LogFile where
  name : String
  mtime : Nat
  content : List (Option Entry)
deriving DecidableEq

/-- The parseable events of a file, in file order (unparseable lines are
skipped, exactly as every reader's `try/except` loop does). -/
def parseableEntries (content : List (Option Entry)) : List Entry :=
  content.filterMap (fun x => x)

/-- Python truthiness of an optional string (`if execution_info['id']:`):
`None` and `""` are falsy. -/
def truthy : Option String → Bool
  | none => false
  | some s => ¬ (s = "")

/-! ## `execution_log_api_enhanced.py`: `get_execution_summary`

The summary fold.  Python keeps eight local variables and scans the file
line by line; for every parsed entry it first applies the four
field-presence updates, then the `type`-specific preview updates. -/

structure Summary where
  id : Option String := none
  timestamp : Option String := none
  language : String := "unknown"
  status : String := "running"
  description : String := ""
  code_preview : String := ""
  output_preview : String := ""
  error_preview : String := ""
  file : String := ""
deriving DecidableEq

/-- The initial values of the fold variables of `get_execution_summary`. -/
def initSummary : Summary := {}

/-- The marker `'\n\nErrors:\n'` splitting combined output from errors. -/
def errMarker : String := "\n\nErrors:\n"

/-- The four unconditional field updates applied to every parsed entry
(`if 'execution_id' in entry: ...` through `if 'timestamp' in entry: ...`). -/
def applyCommonFields (acc : Summary) (e : Entry) : Summary :=
  let a1 := match e.execution_id with
    | some v => { acc with id := some v }
    | none => acc
  let a2 := match e.language with
    | some v => { a1 with language := v }
    | none => a1
  let a3 := match e.status with
    | some v => { a2 with status := v }
    | none => a2
  match e.timestamp with
  | some v => { a3 with timestamp := some v }
  | none => a3

/-- The `type`-dependent preview updates of `get_execution_summary`. -/
def applyTyped (acc : Summary) (e : Entry) : Summary :=
  if e.type = some "code" then
    { acc with
      code_preview := strTake (e.code.getD "") 200
      description := e.message.getD "" }
  else if e.type = some "output" then
    let t := e.output.getD ""
    if t = "" then acc
    else
      match splitFirst errMarker t with
      | some (op, ep) =>
        { acc with output_preview := strTake op 200, error_preview := strTake ep 200 }
      | none => { acc with output_preview := strTake t 200 }
  else acc

/-- One line of the `get_execution_summary` scan. -/
def stepSummary (acc : Summary) : Option Entry → Summary
  | none => acc
  | some e => applyTyped (applyCommonFields acc e) e

/-- The fold over a file's lines performed by `get_execution_summary`. -/
def foldSummary (content : List (Option Entry)) : Summary :=
  content.foldl stepSummary initSummary

/-- `get_execution_summary(log_file)` of the enhanced API: fold the lines,
then report the summary dict (whose `file` key is the file's basename). -/
def get_execution_summary (f : LogFile) : Summary :=
  { foldSummary f.content with file := f.name }

/-! ## `execution_log_api_fixed.py`: `get_execution_final_status` -/

structure FixedSummary where
  id : Option String := none
  timestamp : Option String := none
  language : String := "unknown"
  status : String := "running"
  file : String := ""
deriving DecidableEq

/-- One line of the `get_execution_final_status` scan: the same four
field-presence updates, with no preview handling. -/
def stepFixed (acc : FixedSummary) : Option Entry → FixedSummary
  | none => acc
  | some e =>
    let a1 := match e.execution_id with
      | some v => { acc with id := some v }
      | none => acc
    let a2 := match e.language with
      | some v => { a1 with language := v }
      | none => a1
    let a3 := match e.status with
      | some v => { a2 with status := v }
      | none => a2
    match e.timestamp with
    | some v => { a3 with timestamp := some v }
    | none => a3

/-- The fold over a file's lines performed by `get_execution_final_status`. -/
def foldFixed (content : List (Option Entry)) : FixedSummary :=
  content.foldl stepFixed { }

/-- `get_execution_final_status(log_file)` of the fixed API. -/
def get_execution_final_status (f : LogFile) : FixedSummary :=
  { foldFixed f.content with file := f.name }

/-! ## `execution_log_api.py` (base): first-line listing items -/

structure BaseItem where
  id : Option String := none
  timestamp : Option String := none
  language : String := "unknown"
  status : String := "unknown"
  file : String := ""
deriving DecidableEq

/-- The base API's per-file listing step: read only the first line; if it
is nonempty and parses, report its fields (no fold, and no filtering on a
missing id); otherwise the `except: pass` skips the file. -/
def firstLineItem (f : LogFile) : Option BaseItem :=
  match f.content with
  | some e :: _ =>
    some { id := e.execution_id
           timestamp := e.timestamp
           language := e.language.getD "unknown"
           status := e.status.getD "unknown"
           file := f.name }
  | _ => none

/-! ## The three `handle_list_executions` variants -/

/-- Base API: files sorted by path name descending (`sorted(log_files,
reverse=True)`), first 20, one item per file whose first line parses. -/
def handle_list_executions_base (files : List LogFile) : List BaseItem :=
  ((sortDescBy strLtB (fun f => f.name) files).take 20).filterMap firstLineItem

/-- Fixed API: files sorted by path name descending, first 20, full fold
per file, items whose folded id is falsy dropped. -/
def handle_list_executions_fx (files : List LogFile) : List FixedSummary :=
  (((sortDescBy strLtB (fun f => f.name) files).take 20).map
    get_execution_final_status).filter (fun s => truthy s.id)

/-- Enhanced API: files sorted by modification time descending
(`log_files.sort(key=os.path.getmtime, reverse=True)`), first 50, full
fold per file, items whose folded id is falsy dropped. -/
def handle_list_executions_enh (files : List LogFile) : List Summary :=
  (((sortDescBy natLtB (fun f => f.mtime) files).take 50).map
    get_execution_summary).filter (fun s => truthy s.id)

/-! ## `handle_latest_updates` -/

/-- The timestamp sort key of the cross-file views:
`lambda x: x.get('timestamp', '')`. -/
def tsKey (e : Entry) : String := e.timestamp.getD ""

/-- Enhanced API `handle_latest_updates`: early return on an empty
directory; otherwise sort files by mtime descending, take the first 10,
extend an accumulator with the last 10 parseable entries of each, sort the
accumulated entries by timestamp key descending, and answer the first 50. -/
def handle_latest_updates_enh (files : List LogFile) : List Entry :=
  match files with
  | [] => []
  | _ =>
    let sorted := sortDescBy natLtB (fun f => f.mtime) files
    let all_entries := (sorted.take 10).foldl
      (fun acc f => acc ++ lastN 10 (parseableEntries f.content)) []
    (sortDescBy strLtB tsKey all_entries).take 50

/-- `latestAcrossAll(maxEntries, filesToScan)` as the specification words
it: take the `filesToScan` most-recently-modified files; from each, take
its last 10 events; concatenate; sort the concatenation by each event's
own timestamp field descending; truncate to `maxEntries`. -/
def latestAcrossAllSpec (maxEntries filesToScan : Nat) (files : List LogFile) : List Entry :=
  let recent := (sortDescBy natLtB (fun f => f.mtime) files).take filesToScan
  let pool := recent.flatMap (fun f => lastN 10 (parseableEntries f.content))
  (sortDescBy strLtB tsKey pool).take maxEntries

/-! ## `handle_get_execution` -/

/-- The filename the readers derive from a requested execution id:
`os.path.join(LOG_DIR, f"exec_.json")` with the id between `exec_` and
`.json`. -/
def get_execution_filename (execution_id : String) : String :=
  "exec_" ++ execution_id ++ ".json"

/-- Find the file of the requested id (the `os.path.exists` check). -/
def findLogFile (files : List LogFile) (execution_id : String) : Option LogFile :=
  files.find? (fun f => f.name == get_execution_filename execution_id)

inductive GetResult where
  | notFound
  | ok (execution_id : String) (entries : List Entry) (count : Nat)
deriving DecidableEq

/-- Enhanced API `handle_get_execution`: answer the error body when the
file does not exist, otherwise every parseable entry (with its `code` and
`output` fields stripped) and the count. -/
def handle_get_execution_enh (files : List LogFile) (execution_id : String) : GetResult :=
  match findLogFile files execution_id with
  | none => .notFound
  | some f =>
    let entries := (parseableEntries f.content).map (fun e =>
      { e with code := e.code.map strTrim, output := e.output.map strTrim })
    .ok execution_id entries entries.length

/-- Fixed (and base) API `handle_get_execution`: identical, without the
stripping of `code`/`output`. -/
def handle_get_execution_fx (files : List LogFile) (execution_id : String) : GetResult :=
  match findLogFile files execution_id with
  | none => .notFound
  | some f =>
    let entries := parseableEntries f.content
    .ok execution_id entries entries.length

/-! ## Base/fixed `handle_latest_updates` and enhanced `handle_all_entries` -/

/-- Python's `max(log_files, key=os.path.getmtime)`: the first file of
maximal modification time. -/
def maxByMtime (f : LogFile) (rest : List LogFile) : LogFile :=
  rest.foldl (fun best x => if best.mtime < x.mtime then x else best) f

inductive LatestResult where
  | empty
  | ok (entries : List Entry) (count : Nat) (execution_id : String)
deriving DecidableEq

/-- Base and fixed API `handle_latest_updates`: the single
most-recently-modified file's last 50 lines, parseable ones kept in file
order (no timestamp sort), plus an id recovered from the filename. -/
def handle_latest_updates_base (files : List LogFile) : LatestResult :=
  match files with
  | [] => .empty
  | f :: rest =>
    let latest := maxByMtime f rest
    let entries := (lastN 50 latest.content).filterMap (fun x => x)
    .ok entries entries.length ((latest.name.replace "exec_" "").replace ".json" "")

/-- Enhanced API `handle_all_entries`: every parseable entry of the 20
most-recently-modified files, sorted by timestamp key descending; the
first 100 are answered and `total_available` is the pre-truncation size. -/
def handle_all_entries_enh (files : List LogFile) : List Entry × Nat :=
  let sorted := sortDescBy natLtB (fun f => f.mtime) files
  let all_entries := (sorted.take 20).foldl
    (fun acc f => acc ++ parseableEntries f.content) []
  let sortedEntries := sortDescBy strLtB tsKey all_entries
  (sortedEntries.take 100, sortedEntries.length)

/-! ## The HTTP dispatchers (`do_GET`)

Every variant sends `send_response(200)` and the JSON content-type header
before inspecting the path, so every response — including "Execution not
found", "Unknown endpoint" and handler exceptions — goes out with HTTP
status 200; error conditions exist only as an `"error"` key of the JSON
body.  The bodies are modelled per server as inductives, one constructor
per JSON shape the handlers write. -/

structure Response (β : Type) where
  status : Nat
  body : β
deriving DecidableEq

inductive BaseBody where
  | info
  | health
  | listOk (executions : List BaseItem) (count : Nat)
  | getOk (r : GetResult)
  | latestOk (r : LatestResult)
  | errorBody (msg : String)
deriving DecidableEq

/-- Whether the JSON body written for this response carries an `"error"`
key (for `getOk`/`latestOk`, the inner not-found error body). -/
def BaseBody.hasErrorKey : BaseBody → Bool
  | .errorBody _ => true
  | .getOk .notFound => true
  | _ => false

/-- `do_GET` of `execution_log_api.py`: `send_response(200)` first, then
the `if/elif` chain on the path.  The `elif` for the exact path
`/api/brain/executions/latest` sits below the `startswith` branch. -/
def do_GET_base (files : List LogFile) (path : String) : Response BaseBody :=
  { status := 200
    body :=
      if path = "/" then .info
      else if path = "/api/brain/executions" then
        let ex := handle_list_executions_base files
        .listOk ex ex.length
      else if strStartsWith path "/api/brain/executions/" then
        match handle_get_execution_fx files (afterLastSlash path) with
        | .notFound => .errorBody "Execution not found"
        | r => .getOk r
      else if path = "/api/brain/executions/latest" then
        .latestOk (handle_latest_updates_base files)
      else if path = "/health" then .health
      else .errorBody "Unknown endpoint" }

inductive FixedBody where
  | info
  | health
  | listOk (executions : List FixedSummary) (count : Nat)
  | getOk (r : GetResult)
  | latestOk (r : LatestResult)
  | errorBody (msg : String)
deriving DecidableEq

def FixedBody.hasErrorKey : FixedBody → Bool
  | .errorBody _ => true
  | .getOk .notFound => true
  | _ => false

/-- `do_GET` of `execution_log_api_fixed.py`: same dispatch chain as the
base server (the `latest` branch again below the `startswith` branch). -/
def do_GET_fx (files : List LogFile) (path : String) : Response FixedBody :=
  { status := 200
    body :=
      if path = "/" then .info
      else if path = "/api/brain/executions" then
        let ex := handle_list_executions_fx files
        .listOk ex ex.length
      else if strStartsWith path "/api/brain/executions/" then
        match handle_get_execution_fx files (afterLastSlash path) with
        | .notFound => .errorBody "Execution not found"
        | r => .getOk r
      else if path = "/api/brain/executions/latest" then
        .latestOk (handle_latest_updates_base files)
      else if path = "/health" then .health
      else .errorBody "Unknown endpoint" }

inductive EnhBody where
  | info
  | health
  | listOk (executions : List Summary) (count : Nat) (total : Nat)
  | getOk (r : GetResult)
  | latestOk (entries : List Entry) (count : Nat)
  | allOk (entries : List Entry) (count : Nat) (total : Nat)
  | errorBody (msg : String)
deriving DecidableEq

def EnhBody.hasErrorKey : EnhBody → Bool
  | .errorBody _ => true
  | .getOk .notFound => true
  | _ => false

/-- `do_GET` of `execution_log_api_enhanced.py`: here `latest` and `all`
are resolved on the last path component inside the `startswith` branch. -/
def do_GET_enh (files : List LogFile) (path : String) : Response EnhBody :=
  { status := 200
    body :=
      if path = "/" then .info
      else if path = "/api/brain/executions" then
        let ex := handle_list_executions_enh files
        .listOk ex ex.length files.length
      else if strStartsWith path "/api/brain/executions/" then
        let endpoint := afterLastSlash path
        if endpoint = "latest" then
          let l := handle_latest_updates_enh files
          .latestOk l l.length
        else if endpoint = "all" then
          let (l, total) := handle_all_entries_enh files
          .allOk l l.length total
        else
          match handle_get_execution_enh files endpoint with
          | .notFound => .errorBody "Execution not found"
          | r => .getOk r
      else if path = "/health" then .health
      else .errorBody "Unknown endpoint" }

/-! ## `brain_execute_wrapper.py`: the execution runner

The runner writes one whole JSON snapshot per `save_log` call, keyed by
the generated id with `".json"` appended — note: the id itself, not the
reader-side `exec_` ++ id ++ `.json` derivation.  The subprocess boundary
(`subprocess.run`, wall-clock measurement, timestamp and hash generation)
is abstracted: the outcome of the subprocess, the measured elapsed
milliseconds, the two timestamp renderings and the 8-hex-digit hash are
parameters. -/

structure LogEntry where
  id : String
  timestamp : String
  type : String
  description : String
  code : String
  status : String
  output : String
  error : String
  execution_time : Nat
deriving DecidableEq

/-- The snapshot store of the wrapper: filename-keyed whole-file JSON
snapshots; a later `save_log` under the same name shadows the earlier one. -/
abbrev SnapshotStore := List (String × LogEntry)

/-- `save_log(exec_id, log_entry)`: write (or overwrite) the file
`LOG_DIR/exec_id.json`. -/
def save_log (store : SnapshotStore) (exec_id : String) (entry : LogEntry) : SnapshotStore :=
  (exec_id ++ ".json", entry) :: store

/-- Read a file of the snapshot store (most recent write wins). -/
def snapshotLookup : SnapshotStore → String → Option LogEntry
  | [], _ => none
  | (k, v) :: rest, fname => if k == fname then some v else snapshotLookup rest fname

/-- `os.path.exists` over the snapshot store. -/
def snapshotFileExists (store : SnapshotStore) (fname : String) : Bool :=
  (snapshotLookup store fname).isSome

/-- Python's `description or default`: `None` and `""` are falsy. -/
def descOr (d : Option String) (dflt : String) : String :=
  match d with
  | none => dflt
  | some s => if s = "" then dflt else s

/-- `create_log_entry(code, language, description)`: the generated id is
`exec-<strftime>-<md5 prefix>` and the snapshot starts with
`status="running"`, empty output/error and zero execution time. -/
def create_log_entry (nowIso nowFmt hash8 code language : String)
    (description : Option String) : String × LogEntry :=
  let exec_id := "exec-" ++ nowFmt ++ "-" ++ hash8
  (exec_id,
   { id := exec_id
     timestamp := nowIso
     type := language
     description := descOr description ("Execute " ++ language ++ " code")
     code := code
     status := "running"
     output := ""
     error := ""
     execution_time := 0 })

/-- The three observable outcomes of the `subprocess.run` call inside
`execute_code`: normal completion with captured streams, the
`subprocess.TimeoutExpired` path (the library kills the child and raises
once the 30-second deadline passes), or any other exception. -/
inductive SubprocOutcome where
  | completed (stdout stderr : String)
  | timedOut
  | excFailed (msg : String)

/-- `execute_code(code, language)`: map the subprocess outcome to the
`(output, error, status, execution_time)` quadruple the wrapper records.
On timeout the output is empty and the error is the fixed timeout
message; the outcome is returned, never retried and never dropped. -/
def execute_code (outcome : SubprocOutcome) (elapsedMs : Nat) :
    String × String × String × Nat :=
  match outcome with
  | .completed out err => (out, err, "completed", elapsedMs)
  | .timedOut => ("", "Execution timed out after 30 seconds", "timeout", elapsedMs)
  | .excFailed msg => ("", msg, "error", elapsedMs)

/-- The `language == 'auto'` detection of `wrap_execute`. -/
def auto_language (code language : String) : String :=
  if language = "auto" then
    if strContains code "import " || strContains code "def " || strContains code "print(" then
      "python"
    else "shell"
  else language

/-- `wrap_execute(code, language, description)`: create and save the
`running` snapshot, execute, then save the updated terminal snapshot
under the same filename.  Returns the generated id and the final store
(the human-readable result string the Python function also builds is a
pure rendering of the same data and is not modelled). -/
def wrap_execute (nowIso nowFmt hash8 code language : String)
    (description : Option String) (outcome : SubprocOutcome) (elapsedMs : Nat)
    (store : SnapshotStore) : String × SnapshotStore :=
  let lang := auto_language code language
  let (exec_id, entry0) := create_log_entry nowIso nowFmt hash8 code lang description
  let store1 := save_log store exec_id entry0
  let q := execute_code outcome elapsedMs
  let entry1 := { entry0 with
    output := q.1
    error := q.2.1
    status := q.2.2.1
    execution_time := q.2.2.2 }
  let store2 := save_log store1 exec_id entry1
  (exec_id, store2)

/-! ## Projection lemmas for the summary folds -/

theorem applyCommonFields_timestamp (acc : Summary) (e : Entry) :
    (applyCommonFields acc e).timestamp =
      (match e.timestamp with | some v => some v | none => acc.timestamp) := by
  simp only [applyCommonFields]
  cases e.execution_id <;> cases e.language <;> cases e.status <;> cases e.timestamp <;> rfl

theorem applyCommonFields_error_preview (acc : Summary) (e : Entry) :
    (applyCommonFields acc e).error_preview = acc.error_preview := by
  simp only [applyCommonFields]
  cases e.execution_id <;> cases e.language <;> cases e.status <;> cases e.timestamp <;> rfl

theorem applyTyped_timestamp (acc : Summary) (e : Entry) :
    (applyTyped acc e).timestamp = acc.timestamp := by
  simp only [applyTyped]
  repeat (first | rfl | split)

theorem stepSummary_timestamp (acc : Summary) (l : Option Entry) :
    (stepSummary acc l).timestamp =
      (match l with
       | none => acc.timestamp
       | some e => match e.timestamp with | some v => some v | none => acc.timestamp) := by
  cases l with
  | none => rfl
  | some e =>
    simp only [stepSummary]
    rw [applyTyped_timestamp, applyCommonFields_timestamp]

theorem stepFixed_timestamp (acc : FixedSummary) (l : Option Entry) :
    (stepFixed acc l).timestamp =
      (match l with
       | none => acc.timestamp
       | some e => match e.timestamp with | some v => some v | none => acc.timestamp) := by
  cases l with
  | none => rfl
  | some e =>
    simp only [stepFixed]
    cases e.execution_id <;> cases e.language <;> cases e.status <;> cases e.timestamp <;> rfl

/-- The value of the latest parseable event that sets the field read by
`f`, scanning in file order (`None` when no event sets it). -/
def lastSet (f : Entry → Option String) (content : List (Option Entry)) : Option String :=
  content.foldl
    (fun t l => match l with
      | none => t
      | some e => match f e with | some v => some v | none => t) none

theorem foldl_stepSummary_timestamp (content : List (Option Entry)) :
    ∀ acc : Summary,
      (content.foldl stepSummary acc).timestamp =
        content.foldl
          (fun t l => match l with
            | none => t
            | some e => match e.timestamp with | some v => some v | none => t)
          acc.timestamp := by
  induction content with
  | nil => intro acc; rfl
  | cons hd tl ih =>
    intro acc
    simp only [List.foldl_cons]
    rw [ih]
    congr 1
    exact stepSummary_timestamp acc hd

theorem foldl_stepFixed_timestamp (content : List (Option Entry)) :
    ∀ acc : FixedSummary,
      (content.foldl stepFixed acc).timestamp =
        content.foldl
          (fun t l => match l with
            | none => t
            | some e => match e.timestamp with | some v => some v | none => t)
          acc.timestamp := by
  induction content with
  | nil => intro acc; rfl
  | cons hd tl ih =>
    intro acc
    simp only [List.foldl_cons]
    rw [ih]
    congr 1
    exact stepFixed_timestamp acc hd

/-! ## Further helper lemmas -/

theorem foldl_append_eq_flatMap (l : List α) (f : α → List β) :
    ∀ init : List β, l.foldl (fun acc a => acc ++ f a) init = init ++ l.flatMap f := by
  induction l with
  | nil => intro init; simp
  | cons hd tl ih =>
    intro init
    simp only [List.foldl_cons, List.flatMap_cons]
    rw [ih, List.append_assoc]

theorem writer_key_ne_reader_key (execId : String) :
    ((execId ++ ".json") == get_execution_filename execId) = false := by
  refine beq_eq_false_iff_ne.mpr ?_
  intro h
  have hl := congrArg String.length h
  have h5 : String.length "exec_" = 5 := by decide
  have hj : String.length ".json" = 5 := by decide
  simp only [get_execution_filename, String.length_append, h5, hj] at hl
  omega

/-! ## Claim theorems -/

/-- Claim C1 (code_bug evidence).  The create-then-get round trip fails:
for every execution created and run by `wrap_execute` starting from an
empty log directory, the record is persisted under the writer-derived
filename `<id>.json`, but `handle_get_execution`'s filename derivation
`exec_<id>.json` never matches it, so `getById` with the returned id finds
no file at all (and reports "Execution not found"). -/
theorem C1_roundtrip_fails (nowIso nowFmt hash8 code language : String)
    (description : Option String) (outcome : SubprocOutcome) (elapsedMs : Nat) :
    snapshotFileExists
        (wrap_execute nowIso nowFmt hash8 code language description outcome elapsedMs []).2
        ((wrap_execute nowIso nowFmt hash8 code language description outcome elapsedMs []).1
          ++ ".json") = true
    ∧ snapshotFileExists
        (wrap_execute nowIso nowFmt hash8 code language description outcome elapsedMs []).2
        (get_execution_filename
          (wrap_execute nowIso nowFmt hash8 code language description outcome elapsedMs []).1)
      = false := by
  constructor
  · simp [wrap_execute, create_log_entry, save_log, snapshotFileExists, snapshotLookup]
  · simp [wrap_execute, create_log_entry, save_log, snapshotFileExists, snapshotLookup,
      writer_key_ne_reader_key]

/-- The two-line log file on which the base listing's first-line read and
the full fold disagree about the resolved status. -/
def c2content : List (Option Entry) :=
  [some { execution_id := some "exec-c2", status := some "running", timestamp := some "t1" },
   some { status := some "completed", timestamp := some "t2" }]

/-- Claim C2 (code_bug evidence).  On a file whose first event carries
`status "running"` and whose later event carries `status "completed"`,
the base API's first-line listing item reports `"running"`, while the
enhanced and fixed folds — and the latest parseable event that sets the
field — give `"completed"`: the base listing violates the last-write-wins
fold the claim states. -/
theorem C2_base_first_line_diverges :
    (firstLineItem { name := "exec_exec-c2.json", mtime := 0, content := c2content }).map
        (fun b => b.status) = some "running"
    ∧ (foldSummary c2content).status = "completed"
    ∧ (foldFixed c2content).status = "completed"
    ∧ lastSet Entry.status c2content = some "completed" := by
  refine ⟨rfl, rfl, rfl, rfl⟩

/-- Modelled from the spec claim: the earliest parseable timestamp found
among a file's events (minimum under Python string comparison). -/
def earliestTimestamp (content : List (Option Entry)) : Option String :=
  (content.filterMap (fun l => l.bind Entry.timestamp)).foldl
    (fun acc t =>
      match acc with
      | none => some t
      | some a => if strLtB t a then some t else some a)
    none

/-- A file whose two events carry increasing timestamps. -/
def c5content : List (Option Entry) :=
  [some { timestamp := some "t1" }, some { timestamp := some "t2" }]

/-- Claim C5 counterexample.  On a file with timestamps `"t1"` then
`"t2"`, both summary folds report `"t2"` — the latest timestamp seen —
not the earliest parseable timestamp `"t1"` the claim asserts. -/
theorem C5_counterexample :
    (foldSummary c5content).timestamp ≠ earliestTimestamp c5content
    ∧ earliestTimestamp c5content = some "t1"
    ∧ (foldSummary c5content).timestamp = some "t2"
    ∧ (foldFixed c5content).timestamp = some "t2" := by
  refine ⟨by decide, by decide, rfl, rfl⟩

/-- Claim C5 as amended.  The createdAt/timestamp reported in a record's
summary is the timestamp of the latest parseable event that carries one
(last-write-wins in file order, like every other summary field), not the
earliest parseable timestamp; this holds for both the enhanced and the
fixed fold. -/
theorem C5_amended (content : List (Option Entry)) :
    (foldSummary content).timestamp = lastSet Entry.timestamp content
    ∧ (foldFixed content).timestamp = lastSet Entry.timestamp content := by
  constructor
  · unfold foldSummary lastSet
    rw [foldl_stepSummary_timestamp]
    rfl
  · unfold foldFixed lastSet
    rw [foldl_stepFixed_timestamp]

/-- Claim C3 (confirmed).  The enhanced `handle_latest_updates` equals the
specification's `latestAcrossAll(50, 10)` algorithm — the 10
most-recently-modified files, the last 10 parseable events of each,
concatenated, sorted descending by each event's own timestamp key and
truncated to 50 — and the result indeed holds at most 50 entries, is
sorted descending under the Python string order on timestamp keys, and
events whose timestamp key is empty (in particular events lacking a
timestamp) only ever precede other empty-key events, i.e. sort last. -/
theorem C3_latest_across_all (files : List LogFile) :
    handle_latest_updates_enh files = latestAcrossAllSpec 50 10 files
    ∧ (handle_latest_updates_enh files).length ≤ 50
    ∧ (handle_latest_updates_enh files).Pairwise
        (fun a b => strLtB (tsKey a) (tsKey b) = false)
    ∧ (handle_latest_updates_enh files).Pairwise
        (fun a b => tsKey a = "" → tsKey b = "") := by
  have heq : handle_latest_updates_enh files = latestAcrossAllSpec 50 10 files := by
    cases files with
    | nil => rfl
    | cons f fs =>
      simp only [handle_latest_updates_enh, latestAcrossAllSpec]
      rw [foldl_append_eq_flatMap]
      simp
  have hlen : (latestAcrossAllSpec 50 10 files).length ≤ 50 := by
    simp only [latestAcrossAllSpec]
    rw [List.length_take]
    exact min_le_left _ _
  have hpw : (latestAcrossAllSpec 50 10 files).Pairwise
      (fun a b => strLtB (tsKey a) (tsKey b) = false) := by
    simp only [latestAcrossAllSpec]
    exact (pairwise_sortDescBy strLtB_asymm strLtB_neg_trans _).sublist
      (List.take_sublist _ _)
  refine ⟨heq, heq ▸ hlen, heq ▸ hpw, ?_⟩
  refine (heq ▸ hpw).imp ?_
  intro a b h ha
  exact strLtB_empty_left (ha ▸ h)

/-- A file whose single (parseable) line has a timestamp but no
`execution_id`. -/
def c4file : LogFile :=
  { name := "exec_noid.json", mtime := 0, content := [some { timestamp := some "t" }] }

/-- Claim C4 counterexample.  The base API's listing includes an item
whose fold (first-line read) produced no id field: with one file whose
only line carries just a timestamp, the returned listing contains exactly
one item and its id is `None`, contradicting "never includes an item
whose fold produced no id field". -/
theorem C4_counterexample :
    (handle_list_executions_base [c4file]).any (fun s => s.id.isNone) = true := by decide

/-- Claim C4 as amended.  Every variant returns at most its limit of
items (50 enhanced, 20 base/fixed).  The enhanced variant lists exactly
the id-truthy summaries of a descending-modification-time file sequence;
the fixed variant lists the id-truthy folds of a descending-path-name
file sequence; the base variant lists the first-line items of a
descending-path-name file sequence without filtering out items whose
parse produced no id. -/
theorem C4_amended (files : List LogFile) :
    (handle_list_executions_enh files).length ≤ 50
    ∧ (∀ s ∈ handle_list_executions_enh files, truthy s.id = true)
    ∧ (∃ fs : List LogFile, fs.Pairwise (fun a b => b.mtime ≤ a.mtime) ∧
        handle_list_executions_enh files
          = (fs.map get_execution_summary).filter (fun s => truthy s.id))
    ∧ (handle_list_executions_fx files).length ≤ 20
    ∧ (∀ s ∈ handle_list_executions_fx files, truthy s.id = true)
    ∧ (∃ fs : List LogFile, fs.Pairwise (fun a b => strLtB a.name b.name = false) ∧
        handle_list_executions_fx files
          = (fs.map get_execution_final_status).filter (fun s => truthy s.id))
    ∧ (handle_list_executions_base files).length ≤ 20
    ∧ (∃ fs : List LogFile, fs.Pairwise (fun a b => strLtB a.name b.name = false) ∧
        handle_list_executions_base files = fs.filterMap firstLineItem) := by
  refine ⟨?_, ?_, ?_, ?_, ?_, ?_, ?_, ?_⟩
  · calc (handle_list_executions_enh files).length
        ≤ (((sortDescBy natLtB (fun f => f.mtime) files).take 50).map
            get_execution_summary).length := List.length_filter_le _ _
      _ = ((sortDescBy natLtB (fun f => f.mtime) files).take 50).length :=
          List.length_map _ _
      _ ≤ 50 := by rw [List.length_take]; exact min_le_left _ _
  · intro s hs
    exact (List.mem_filter.mp hs).2
  · refine ⟨(sortDescBy natLtB (fun f : LogFile => f.mtime) files).take 50, ?_, ?_⟩
    · refine ((pairwise_sortDescBy natLtB_asymm natLtB_neg_trans files).sublist
        (List.take_sublist _ _)).imp (fun h => ?_)
      exact Nat.not_lt.mp (of_decide_eq_false h)
    · rfl
  · calc (handle_list_executions_fx files).length
        ≤ (((sortDescBy strLtB (fun f => f.name) files).take 20).map
            get_execution_final_status).length := List.length_filter_le _ _
      _ = ((sortDescBy strLtB (fun f => f.name) files).take 20).length :=
          List.length_map _ _
      _ ≤ 20 := by rw [List.length_take]; exact min_le_left _ _
  · intro s hs
    exact (List.mem_filter.mp hs).2
  · refine ⟨(sortDescBy strLtB (fun f : LogFile => f.name) files).take 20, ?_, ?_⟩
    · exact (pairwise_sortDescBy strLtB_asymm strLtB_neg_trans files).sublist
        (List.take_sublist _ _)
    · rfl
  · calc (handle_list_executions_base files).length
        ≤ ((sortDescBy strLtB (fun f => f.name) files).take 20).length :=
          List.length_filterMap_le _ _
      _ ≤ 20 := by rw [List.length_take]; exact min_le_left _ _
  · refine ⟨(sortDescBy strLtB (fun f : LogFile => f.name) files).take 20, ?_, ?_⟩
    · exact (pairwise_sortDescBy strLtB_asymm strLtB_neg_trans files).sublist
        (List.take_sublist _ _)
    · rfl

/-- A store whose file for id `e1` exists but holds one unparseable line. -/
def c6file : LogFile := { name := "exec_e1.json", mtime := 0, content := [none] }

/-- Claim C6 counterexample.  With the file `exec_e1.json` present but
containing only an unparseable line, the store has no parseable events
for `e1`, yet getById answers the well-formed result with an empty entry
list instead of NotFound. -/
theorem C6_counterexample :
    handle_get_execution_enh [c6file] "e1" ≠ GetResult.notFound
    ∧ handle_get_execution_enh [c6file] "e1" = GetResult.ok "e1" [] 0
    ∧ parseableEntries c6file.content = [] := by decide

/-- Claim C6 as amended.  getById (enhanced and fixed alike) signals
NotFound exactly when no file exists at the derived filename
`exec_<id>.json`; an existing file with no parseable events yields a
well-formed result with an empty entries list. -/
theorem C6_amended (files : List LogFile) (execution_id : String) :
    (handle_get_execution_enh files execution_id = GetResult.notFound
      ↔ findLogFile files execution_id = none)
    ∧ (handle_get_execution_fx files execution_id = GetResult.notFound
      ↔ findLogFile files execution_id = none) := by
  constructor
  · cases h : findLogFile files execution_id <;>
      simp [handle_get_execution_enh, h]
  · cases h : findLogFile files execution_id <;>
      simp [handle_get_execution_fx, h]

/-- Claim C7 (confirmed).  For every run whose subprocess exceeds the
deadline (the `subprocess.TimeoutExpired` outcome, after which the
library has killed the child), the record saved by `wrap_execute` under
the generated id carries terminal status `"timeout"`, the fixed timeout
message as its error output, empty captured output, and the measured
elapsed time — the outcome is always recorded (the terminal `save_log` is
unconditional) and the single `execute_code` call is never retried. -/
theorem C7_timeout_recorded (nowIso nowFmt hash8 code language : String)
    (description : Option String) (elapsedMs : Nat) (store : SnapshotStore) :
    (snapshotLookup
        (wrap_execute nowIso nowFmt hash8 code language description
          SubprocOutcome.timedOut elapsedMs store).2
        ((wrap_execute nowIso nowFmt hash8 code language description
          SubprocOutcome.timedOut elapsedMs store).1 ++ ".json")).map
      (fun e => (e.status, e.error, e.output, e.execution_time))
    = some ("timeout", "Execution timed out after 30 seconds", "", elapsedMs) := by
  simp [wrap_execute, create_log_entry, save_log, snapshotLookup, execute_code]

/-- Claim C8 (confirmed).  Every GET response of every server variant is
sent with HTTP status 200 — the dispatchers call `send_response(200)`
before inspecting the path — and error conditions (unknown endpoint,
execution not found) are signalled only by an `"error"` key in the JSON
body, while successful responses carry none. -/
theorem C8_http_status_always_200 :
    (∀ (files : List LogFile) (path : String),
        (do_GET_base files path).status = 200
        ∧ (do_GET_fx files path).status = 200
        ∧ (do_GET_enh files path).status = 200)
    ∧ (do_GET_base [] "/no/such/endpoint").body.hasErrorKey = true
    ∧ (do_GET_fx [] "/no/such/endpoint").body.hasErrorKey = true
    ∧ (do_GET_enh [] "/no/such/endpoint").body.hasErrorKey = true
    ∧ (do_GET_base [] "/api/brain/executions/missing").body.hasErrorKey = true
    ∧ (do_GET_fx [] "/api/brain/executions/missing").body.hasErrorKey = true
    ∧ (do_GET_enh [] "/api/brain/executions/missing").body.hasErrorKey = true
    ∧ (do_GET_base [] "/health").body.hasErrorKey = false
    ∧ (do_GET_enh [] "/api/brain/executions").body.hasErrorKey = false := by
  refine ⟨fun files path => ⟨rfl, rfl, rfl⟩, ?_, ?_, ?_, ?_, ?_, ?_, ?_, ?_⟩ <;> decide

/-- The exact path of the latest-updates endpoint does start with the
get-execution prefix, which is why the prefix branch captures it. -/
theorem latest_path_startsWith :
    strStartsWith "/api/brain/executions/latest" "/api/brain/executions/" = true := by decide

/-- Claim C9 (confirmed).  In the base and fixed servers a GET of
`/api/brain/executions/latest` is dispatched to `handle_get_execution`
with id `"latest"` (the `startswith` branch matches first), and no path
whatsoever reaches the `handle_latest_updates` branch of those
dispatchers: its response shape is unreachable. -/
theorem C9_latest_shadowed :
    (∀ files : List LogFile,
        (do_GET_base files "/api/brain/executions/latest").body
          = (match handle_get_execution_fx files "latest" with
             | .notFound => BaseBody.errorBody "Execution not found"
             | r => BaseBody.getOk r))
    ∧ (∀ files : List LogFile,
        (do_GET_fx files "/api/brain/executions/latest").body
          = (match handle_get_execution_fx files "latest" with
             | .notFound => FixedBody.errorBody "Execution not found"
             | r => FixedBody.getOk r))
    ∧ (∀ (files : List LogFile) (path : String) (r : LatestResult),
        (do_GET_base files path).body ≠ BaseBody.latestOk r)
    ∧ (∀ (files : List LogFile) (path : String) (r : LatestResult),
        (do_GET_fx files path).body ≠ FixedBody.latestOk r) := by
  have ha : afterLastSlash "/api/brain/executions/latest" = "latest" := by decide
  refine ⟨?_, ?_, ?_, ?_⟩
  · intro files
    simp only [do_GET_base]
    rw [if_neg (by decide), if_neg (by decide), if_pos latest_path_startsWith, ha]
  · intro files
    simp only [do_GET_fx]
    rw [if_neg (by decide), if_neg (by decide), if_pos latest_path_startsWith, ha]
  · intro files path r
    by_cases h0 : path = "/"
    · simp only [do_GET_base, if_pos h0]
      simp
    · by_cases h1 : path = "/api/brain/executions"
      · simp only [do_GET_base, if_neg h0, if_pos h1]
        simp
      · by_cases h2 : strStartsWith path "/api/brain/executions/" = true
        · simp only [do_GET_base, if_neg h0, if_neg h1, if_pos h2]
          split <;> simp
        · by_cases h3 : path = "/api/brain/executions/latest"
          · exact absurd (by rw [h3]; exact latest_path_startsWith) h2
          · by_cases h4 : path = "/health"
            · simp only [do_GET_base, if_neg h0, if_neg h1, if_neg h2, if_neg h3, if_pos h4]
              simp
            · simp only [do_GET_base, if_neg h0, if_neg h1, if_neg h2, if_neg h3, if_neg h4]
              simp
  · intro files path r
    by_cases h0 : path = "/"
    · simp only [do_GET_fx, if_pos h0]
      simp
    · by_cases h1 : path = "/api/brain/executions"
      · simp only [do_GET_fx, if_neg h0, if_pos h1]
        simp
      · by_cases h2 : strStartsWith path "/api/brain/executions/" = true
        · simp only [do_GET_fx, if_neg h0, if_neg h1, if_pos h2]
          split <;> simp
        · by_cases h3 : path = "/api/brain/executions/latest"
          · exact absurd (by rw [h3]; exact latest_path_startsWith) h2
          · by_cases h4 : path = "/health"
            · simp only [do_GET_fx, if_neg h0, if_neg h1, if_neg h2, if_neg h3, if_pos h4]
              simp
            · simp only [do_GET_fx, if_neg h0, if_neg h1, if_neg h2, if_neg h3, if_neg h4]
              simp

/-- Splitting the empty text never finds the marker. -/
theorem splitFirst_empty (m : String) : splitFirst m "" = none := rfl

/-- The summary accumulator of the C10 counterexample: an earlier output
event has already set a preview. -/
def c10acc : Summary := { output_preview := "prev" }

/-- The C10 counterexample event: an output event whose text is empty. -/
def c10evt : Entry := { type := some "output", output := some "" }

/-- Claim C10 counterexample.  For an output event with empty text the
claim's "otherwise" case would make the (empty) whole text the output
preview, but the fold skips empty output texts entirely and keeps the
previous preview. -/
theorem C10_counterexample :
    (stepSummary c10acc (some c10evt)).output_preview
      ≠ strTake (c10evt.output.getD "") 200
    ∧ (stepSummary c10acc (some c10evt)).output_preview = "prev" := by decide

/-- Claim C10 as amended.  For an output event with nonempty text
containing the marker, the text is split at the first occurrence: the
part before it (truncated to 200 characters) becomes the output preview
and the part after it (truncated to 200 characters) becomes the error
preview; with nonempty text and no marker, the whole text truncated to
200 characters becomes the output preview and the error preview is left
unchanged (in particular it stays empty if it was empty); an output event
with empty or missing text changes no preview at all. -/
theorem C10_amended (acc : Summary) (e : Entry) (htype : e.type = some "output") :
    (e.output.getD "" = "" → stepSummary acc (some e) = applyCommonFields acc e)
    ∧ (∀ op ep, splitFirst errMarker (e.output.getD "") = some (op, ep) →
        (stepSummary acc (some e)).output_preview = strTake op 200
        ∧ (stepSummary acc (some e)).error_preview = strTake ep 200)
    ∧ (e.output.getD "" ≠ "" → splitFirst errMarker (e.output.getD "") = none →
        (stepSummary acc (some e)).output_preview = strTake (e.output.getD "") 200
        ∧ (stepSummary acc (some e)).error_preview = acc.error_preview) := by
  have hcode : ¬ (e.type = some "code") := by rw [htype]; decide
  have hstep : stepSummary acc (some e) = applyTyped (applyCommonFields acc e) e := rfl
  refine ⟨?_, ?_, ?_⟩
  · intro ht
    rw [hstep]
    unfold applyTyped
    simp only [if_neg hcode, if_pos htype]
    rw [if_pos ht]
  · intro op ep hsplit
    have ht : e.output.getD "" ≠ "" := by
      intro h
      rw [h, splitFirst_empty] at hsplit
      exact Option.noConfusion hsplit
    rw [hstep]
    unfold applyTyped
    simp only [if_neg hcode, if_pos htype]
    rw [if_neg ht, hsplit]
    exact ⟨rfl, rfl⟩
  · intro ht hsplit
    rw [hstep]
    unfold applyTyped
    simp only [if_neg hcode, if_pos htype]
    rw [if_neg ht, hsplit]
    exact ⟨rfl, applyCommonFields_error_preview acc e⟩

/-- The C10 witness event: output text with the marker between `"A"` and
`"B"`. -/
def c10wEvt : Entry := { type := some "output", output := some "A\n\nErrors:\nB" }

/-- Witness for C10_amended at a concrete event: the marker case splits
`"A\n\nErrors:\nB"` into previews `"A"` and `"B"`. -/
theorem C10_amended_witness :
    (stepSummary initSummary (some c10wEvt)).output_preview = strTake "A" 200
    ∧ (stepSummary initSummary (some c10wEvt)).error_preview = strTake "B" 200 :=
  (C10_amended initSummary c10wEvt rfl).2.1 "A" "B" (by decide)
